import Mathlib

/-
  Verification development for the dodola repository (src/dodola/cli.py and
  src/dodola/services.py), a CLI and services layer for GCM bias-correction
  and downscaling.  Pure fragments of the Python code are embedded as Lean
  functions; stateful storage access is embedded as explicit state passing
  over a StorageState together with an observable effect trace.  Components
  of dodola.core that the specification describes but whose source is not
  part of the two files under study (the region writer, the QPLAD engine,
  the validator rule runner, the attribute merge policy) are modelled from
  the specification text and marked as such in their doc comments.
-/

namespace Dodola

/-- Errors raised at the Python level by the code under study. -/
inductive PyErr where
  | typeError
  | valueError
  | usageError
  | attributeError
  deriving DecidableEq, Repr

/-- Observable storage and logging effects performed by a service call. -/
inductive Effect where
  | log (msg : String)
  | storageRead (url : String)
  | storageWrite (url : String)
  deriving DecidableEq, Repr

/-- Whether an effect is a read from storage. -/
def Effect.isStorageRead : Effect → Bool
  | .storageRead _ => true
  | _ => false

/-- Whether an effect is a write to storage. -/
def Effect.isStorageWrite : Effect → Bool
  | .storageWrite _ => true
  | _ => false

/-- Python dict assignment d[k] = v on a dict modelled as an association
list: an existing key keeps its original position and has its value
replaced, a new key is appended at the end. -/
def dinsert {α : Type} (k : String) (v : α) : List (String × α) → List (String × α)
  | [] => [(k, v)]
  | p :: rest => if p.1 = k then (k, v) :: rest else p :: dinsert k v rest

/-- Python dict lookup d[k], as an Option. -/
def dlookup {α : Type} (k : String) : List (String × α) → Option α
  | [] => none
  | p :: rest => if p.1 = k then some p.2 else dlookup k rest

/-- Auxiliary recursion of pySplit over the character list of the string,
carrying the reversed characters of the current field. -/
def pySplitAux (sep : Char) : List Char → List Char → List String
  | [], acc => [String.mk acc.reverse]
  | c :: cs, acc =>
    if c = sep then String.mk acc.reverse :: pySplitAux sep cs []
    else pySplitAux sep cs (c :: acc)

/-- Embeds the Python str.split method with a single character separator,
as cli.py uses it on the equals sign and the comma: the fields between
separator occurrences, in order, empty fields included. -/
def pySplit (sep : Char) (s : String) : List String :=
  pySplitAux sep s.data []

/-- Embeds the Python tuple unpacking k, v = s.split on the equals sign,
as used throughout cli.py: it succeeds exactly when the split yields two
parts and raises a ValueError otherwise. -/
def splitEq2 (s : String) : Except PyErr (String × String) :=
  match pySplit '=' s with
  | [k, v] => .ok (k, v)
  | _ => .error .valueError

/-- Decimal digits of a numeral accumulated into a natural number; any
non-digit character rejects the whole numeral. -/
def pyNatFrom (acc : Nat) : List Char → Option Nat
  | [] => some acc
  | c :: cs =>
    if '0' ≤ c ∧ c ≤ '9' then pyNatFrom (acc * 10 + (c.toNat - 48)) cs
    else none

/-- Embeds the Python int constructor on the plain decimal numerals that
the CLI slice options receive: an optional leading minus sign followed by
at least one decimal digit; anything else raises a ValueError. -/
def pyIntOfString (s : String) : Option Int :=
  match s.data with
  | [] => none
  | '-' :: rest =>
    if rest.isEmpty then none
    else (pyNatFrom 0 rest).map (fun n => -(n : Int))
  | l => (pyNatFrom 0 l).map (fun n => (n : Int))

/-- The Python int constructor as an Except: a non-numeral raises a
ValueError. -/
def pyInt (s : String) : Except PyErr Int :=
  match pyIntOfString s with
  | some n => .ok n
  | none => .error .valueError

/-- The start message logged by the log_service decorator of services.py. -/
def startingMsg (servicename : String) : String :=
  "Starting " ++ servicename ++ " dodola service"

/-- The completion message logged by the log_service decorator of services.py. -/
def doneMsg (servicename : String) : String :=
  "dodola service " ++ servicename ++ " done"

/-- Embeds the log_service decorator of services.py: the wrapper logs the
start message, invokes the wrapped function (whose own log lines and
outcome are given by func), logs the done message only when the wrapped
function returned normally, discards the wrapped function result and
returns None; an exception of the wrapped function propagates. -/
def log_service {α ε ρ : Type} (servicename : String)
    (func : α → List String × Except ε ρ) (args : α) :
    List String × Except ε Unit :=
  match func args with
  | (funcLog, .ok _) => (startingMsg servicename :: funcLog ++ [doneMsg servicename], .ok ())
  | (funcLog, .error e) => (startingMsg servicename :: funcLog, .error e)

/-- One parameter of a Python function signature: its name and whether the
signature gives it a default value. -/
structure PyParam where
  name : String
  hasDefault : Bool
  deriving DecidableEq, Repr

/-- The required parameters of a Python signature left unfilled by a call
that supplies npos positional arguments and the keyword arguments kw. -/
def missingRequired (params : List PyParam) (npos : Nat) (kw : List String) : List String :=
  ((params.drop npos).filter (fun p => !p.hasDefault && !(kw.contains p.name))).map PyParam.name

/-- Embeds Python call binding against a signature: too many positional
arguments, an unexpected or duplicated keyword argument, or a missing
required argument each raise a TypeError before the function body runs. -/
def pyBindCheck (params : List PyParam) (npos : Nat) (kw : List String) : Except PyErr Unit :=
  if params.length < npos then .error .typeError
  else if !(kw.all (fun k => ((params.drop npos).map PyParam.name).contains k)) then .error .typeError
  else if kw.eraseDups.length ≠ kw.length then .error .typeError
  else if !(missingRequired params npos kw).isEmpty then .error .typeError
  else .ok ()

/-- Embeds invoking a services.py function decorated with log_service: the
decorator itself accepts any arguments, logs the start message, and only
then calls the wrapped function, at which point argument binding against
the wrapped signature happens; a binding failure raises a TypeError there,
before any effect of the body, so the body effects and the done message
appear only when binding succeeds. -/
def callLoggedService (servicename : String) (params : List PyParam) (npos : Nat)
    (kw : List String) (body : List Effect) : List Effect × Except PyErr Unit :=
  match pyBindCheck params npos kw with
  | .error e => ([.log (startingMsg servicename)], .error e)
  | .ok _ => ([.log (startingMsg servicename)] ++ body ++ [.log (doneMsg servicename)], .ok ())

/-- Signature of services.rechunk: x, target_chunks, out, max_mem, storage,
all without defaults. -/
def rechunkParams : List PyParam :=
  [⟨"x", false⟩, ⟨"target_chunks", false⟩, ⟨"out", false⟩,
   ⟨"max_mem", false⟩, ⟨"storage", false⟩]

/-- Signature of services.clean_cmip6: x, out, leapday_removal, storage,
all without defaults. -/
def cleanCmip6Params : List PyParam :=
  [⟨"x", false⟩, ⟨"out", false⟩, ⟨"leapday_removal", false⟩, ⟨"storage", false⟩]

/-- Signature of services.remove_leapdays: x, out, storage, all without
defaults. -/
def removeLeapdaysParams : List PyParam :=
  [⟨"x", false⟩, ⟨"out", false⟩, ⟨"storage", false⟩]

/-- The function names that services.py actually defines. -/
def servicesModuleNames : List String :=
  ["log_service", "bias_correct", "build_weights", "rechunk", "regrid",
   "clean_cmip6", "remove_leapdays", "disaggregate"]

/-- Embeds the Python attribute lookup on the services module, as every
CLI handler performs when it evaluates the callee of its service call: a
name that services.py does not define raises an AttributeError.  Python
evaluates the callee of a call expression before its arguments, so this
lookup happens before any argument expression of the call is evaluated. -/
def servicesAttr (name : String) : Except PyErr String :=
  if servicesModuleNames.contains name then .ok name else .error .attributeError

/-- Body effects of services.rechunk when it runs: read x, stream the
rechunked output into storage at out, log the completion line. -/
def rechunkBody (x out : String) : List Effect :=
  [.storageRead x, .storageWrite out, .log ("Written " ++ out)]

/-- Body effects of services.clean_cmip6 when it runs: read x, write the
cleaned dataset to out. -/
def cleanCmip6Body (x out : String) : List Effect :=
  [.storageRead x, .storageWrite out]

/-- Body effects of services.remove_leapdays when it runs: read x, write
the no-leap dataset to out. -/
def removeLeapdaysBody (x out : String) : List Effect :=
  [.storageRead x, .storageWrite out]

/-- Embeds the CLI command rechunk of cli.py: it calls services.rechunk
with one positional argument str(x) and the keyword arguments
target_chunks and out, and nothing else. -/
def cliRechunk (x out : String) : List Effect × Except PyErr Unit :=
  callLoggedService "rechunk" rechunkParams 1 ["target_chunks", "out"] (rechunkBody x out)

/-- Embeds the CLI command cleancmip6 of cli.py: it calls
services.clean_cmip6 with the three positional arguments x, out,
drop_leapdays and nothing else. -/
def cliCleancmip6 (x out : String) : List Effect × Except PyErr Unit :=
  callLoggedService "clean_cmip6" cleanCmip6Params 3 [] (cleanCmip6Body x out)

/-- Embeds the CLI command removeleapdays of cli.py: it calls
services.remove_leapdays with the two positional arguments x, out and
nothing else. -/
def cliRemoveleapdays (x out : String) : List Effect × Except PyErr Unit :=
  callLoggedService "remove_leapdays" removeLeapdaysParams 2 [] (removeLeapdaysBody x out)

/-- The mutable contents of the storage abstraction, one dataset of type α
per URL. -/
structure StorageState (α : Type) where
  store : String → α

/-- Embeds services.bias_correct of services.py: read the training dataset
at x_train, the observations at y_train and the prediction input at x,
apply the dodola.core transform apply_bias_correction (taken here as a
parameter, since its source lives in dodola.core), and write the resulting
new dataset to out.  Returns the new storage state and the effect trace. -/
def bias_correct {α : Type}
    (apply_bias_correction : α → α → α → String → String → String → α)
    (x x_train train_variable y_train out out_variable method : String)
    (st : StorageState α) : StorageState α × List Effect :=
  let gcm_training_ds := st.store x_train
  let obs_training_ds := st.store y_train
  let gcm_predict_ds := st.store x
  let bias_corrected_ds :=
    apply_bias_correction gcm_training_ds obs_training_ds gcm_predict_ds
      train_variable out_variable method
  (⟨fun u => if u = out then bias_corrected_ds else st.store u⟩,
   [.storageRead x_train, .storageRead y_train, .storageRead x, .storageWrite out])

/-- Embeds services.clean_cmip6 of services.py: read x, apply the
dodola.core transform standardize_gcm (a parameter) with the
leapday_removal flag, write the cleaned dataset to out. -/
def clean_cmip6 {α : Type} (standardize_gcm : α → Bool → α)
    (x out : String) (leapday_removal : Bool)
    (st : StorageState α) : StorageState α × List Effect :=
  let ds := st.store x
  let cleaned_ds := standardize_gcm ds leapday_removal
  (⟨fun u => if u = out then cleaned_ds else st.store u⟩,
   [.storageRead x, .storageWrite out])

/-- Embeds services.remove_leapdays of services.py: read x, apply the
dodola.core transform xclim_remove_leapdays (a parameter), write the
no-leap dataset to out. -/
def remove_leapdays {α : Type} (xclim_remove_leapdays : α → α)
    (x out : String) (st : StorageState α) : StorageState α × List Effect :=
  let ds := st.store x
  let noleap_ds := xclim_remove_leapdays ds
  (⟨fun u => if u = out then noleap_ds else st.store u⟩,
   [.storageRead x, .storageWrite out])

/-- Python slice object slice(start, stop, step) with boundaries of type α;
a missing boundary is None. -/
structure PySlice (α : Type) where
  start : Option α
  stop : Option α
  step : Option α
  deriving DecidableEq, Repr

/-- Embeds the Python slice constructor applied to an argument list, as in
the CLI expression building a slice from the parts of a split option
value: one argument is the stop, two are start and stop, three are start,
stop and step; any other arity raises a TypeError. -/
def mkSlice {α : Type} : List α → Except PyErr (PySlice α)
  | [a] => .ok ⟨none, some a, none⟩
  | [a, b] => .ok ⟨some a, some b, none⟩
  | [a, b, c] => .ok ⟨some a, some b, some c⟩
  | _ => .error .typeError

/-- Embeds one iteration of the selslice loops of cli.py (apply_qdm,
train_qdm, apply_qplad, train_qplad): k, v = s.split on the equals sign,
then a slice built from the comma-split parts of v mapped through str,
which leaves them strings. -/
def parseSelEntry (s : String) : Except PyErr (String × PySlice String) :=
  match splitEq2 s with
  | .error e => .error e
  | .ok (k, v) =>
    match mkSlice (pySplit ',' v) with
    | .error e => .error e
    | .ok sl => .ok (k, sl)

/-- Embeds the Python map of int over the comma-split parts, consumed
eagerly by the slice constructor: the first non-numeral raises a
ValueError. -/
def pyIntList : List String → Except PyErr (List Int)
  | [] => .ok []
  | s :: rest =>
    match pyIntOfString s with
    | none => .error .valueError
    | some n =>
      match pyIntList rest with
      | .error e => .error e
      | .ok ns => .ok (n :: ns)

/-- Embeds one iteration of the iselslice and out-zarr-region loops of
cli.py: k, v = s.split on the equals sign, then a slice built from the
comma-split parts of v mapped through int. -/
def parseIntSliceEntry (s : String) : Except PyErr (String × PySlice Int) :=
  match splitEq2 s with
  | .error e => .error e
  | .ok (k, v) =>
    match pyIntList (pySplit ',' v) with
    | .error e => .error e
    | .ok parts =>
      match mkSlice parts with
      | .error e => .error e
      | .ok sl => .ok (k, sl)

/-- The iselslice loop and the out-zarr-region loop of cli.py have the same
body; this names the out-zarr-region instance. -/
def parseRegionEntry (s : String) : Except PyErr (String × PySlice Int) :=
  parseIntSliceEntry s

/-- The parsing loop of a repeated slice option of cli.py with its
running dict made explicit: each entry is parsed and assigned into the
dict in order. -/
def parseSlicesFrom {α : Type} (parseEntry : String → Except PyErr (String × PySlice α))
    (acc : List (String × PySlice α)) :
    List String → Except PyErr (List (String × PySlice α))
  | [] => .ok acc
  | s :: rest =>
    match parseEntry s with
    | .error e => .error e
    | .ok p => parseSlicesFrom parseEntry (dinsert p.1 p.2 acc) rest

/-- Embeds the option handling pattern of cli.py for a repeated slice
option: a falsy (empty) tuple of entries leaves the dict None, otherwise
the entries are parsed in order into a dict starting from the empty
dict. -/
def parseSliceDict {α : Type} (parseEntry : String → Except PyErr (String × PySlice α))
    (entries : List String) : Except PyErr (Option (List (String × PySlice α))) :=
  if entries.isEmpty then .ok none
  else
    match parseSlicesFrom parseEntry [] entries with
    | .error e => .error e
    | .ok d => .ok (some d)

/-- The slice dicts the apply_qdm CLI handler builds into its local
variables sel_slices_d, isel_slices_d and out_zarr_region_d, intended for
the sel_slice, isel_slice and out_zarr_region keyword arguments of its
service call. -/
structure ApplyQdmSliceArgs where
  sel_slice : Option (List (String × PySlice String))
  isel_slice : Option (List (String × PySlice Int))
  out_zarr_region : Option (List (String × PySlice Int))
  deriving DecidableEq, Repr

/-- Embeds the slice-parsing statements of the apply_qdm CLI handler of
cli.py, which run before the service call: the three repeated options are
parsed, in source order, into the three local dicts. -/
def cliApplyQdmSlices (selslice iselslice outZarrRegion : List String) :
    Except PyErr ApplyQdmSliceArgs :=
  match parseSliceDict parseSelEntry selslice with
  | .error e => .error e
  | .ok selSlicesD =>
    match parseSliceDict parseIntSliceEntry iselslice with
    | .error e => .error e
    | .ok iselSlicesD =>
      match parseSliceDict parseRegionEntry outZarrRegion with
      | .error e => .error e
      | .ok outZarrRegionD => .ok ⟨selSlicesD, iselSlicesD, outZarrRegionD⟩

/-- A resolved service invocation of the apply_qdm handler: the callee
the attribute lookup produced together with the slice dicts handed to
it.  None is ever produced, since the lookup fails. -/
structure ApplyQdmServiceInvocation where
  callee : String
  args : ApplyQdmSliceArgs
  deriving DecidableEq, Repr

/-- Embeds the apply_qdm CLI handler of cli.py end to end: the slice
options are parsed into the local dicts, and then the handler evaluates
the call services.apply_qdm(...).  The callee attribute lookup is
evaluated before the call arguments, and apply_qdm is not among the names
services.py defines, so the lookup raises an AttributeError and the
parsed dicts are never passed to any service. -/
def cliApplyQdm (selslice iselslice outZarrRegion : List String) :
    Except PyErr ApplyQdmServiceInvocation :=
  match cliApplyQdmSlices selslice iselslice outZarrRegion with
  | .error e => .error e
  | .ok args =>
    match servicesAttr "apply_qdm" with
    | .error e => .error e
    | .ok callee => .ok ⟨callee, args⟩

/-- The service call arguments produced by a concrete apply_qdm slice
invocation, used as a closed instance below. -/
def cliApplyQdmSlicesWitnessArgs : ApplyQdmSliceArgs :=
  ⟨some [("time", ⟨some "2020", some "2021", none⟩)],
   some [("lat", ⟨some 0, some 90, none⟩)],
   some [("lon", ⟨some 10, some 20, none⟩)]⟩

/-- Embeds the new_attrs dict comprehension of cli.py, with its running
dict made explicit: each entry is split on the equals sign into exactly a
key and a value (anything else raises a ValueError) and assigned into the
dict, so a repeated key keeps the value of its last entry. -/
def unpackAttrsFrom (acc : List (String × String)) :
    List String → Except PyErr (List (String × String))
  | [] => .ok acc
  | s :: rest =>
    match splitEq2 s with
    | .ok (k, v) => unpackAttrsFrom (dinsert k v acc) rest
    | .error e => .error e

/-- Embeds the full new_attrs dict comprehension of cli.py, starting from
the empty dict. -/
def unpackAttrs (entries : List String) : Except PyErr (List (String × String)) :=
  unpackAttrsFrom [] entries

/-- First-preferring choice between two optional values. -/
def orElseO {α : Type} : Option α → Option α → Option α
  | some a, _ => some a
  | none, b => b

/-- The value contributed for a key by the last well-formed entry naming
that key, used to state the last-entry-wins property of unpackAttrs: a
later entry for the key beats an earlier one. -/
def lastVal (k : String) : List String → Option String
  | [] => none
  | s :: rest =>
    orElseO (lastVal k rest)
      (match pySplit '=' s with
       | [k', v] => if k' = k then some v else none
       | _ => none)

/-- The keys of a dict, in order. -/
def keys {α : Type} (d : List (String × α)) : List String :=
  d.map Prod.fst

/-- Successive Python dict updates of an accumulator dict with the
bindings of a list, in order. -/
def foldIns {α : Type} (acc : List (String × α)) (l : List (String × α)) :
    List (String × α) :=
  l.foldl (fun a p => dinsert p.1 p.2 a) acc

/-- Modelled from the spec (section 6): the attribute merge applied when
priming or writing an output store — start from the attributes implied by
the input data, update with the root-attributes JSON blob, then update
with the key=value overrides, so overrides take precedence over the blob,
which takes precedence over the data-implied attributes. -/
def mergeAttrs (dataAttrs jsonAttrs overrides : List (String × String)) :
    List (String × String) :=
  foldIns (foldIns dataAttrs jsonAttrs) overrides

/-- Lower-casing of an ASCII letter, the case folding relevant to the
declared choices of cli.py. -/
def lowerChar (c : Char) : Char :=
  if 'A' ≤ c ∧ c ≤ 'Z' then Char.ofNat (c.toNat + 32) else c

/-- Lower-casing of a string, character by character. -/
def lowerStr (s : String) : String :=
  String.mk (s.data.map lowerChar)

/-- Modelled from the click API used by cli.py: click.Choice with
case_sensitive set to False matches the supplied value against the
declared choices ignoring case and yields the matching declared choice;
a value matching no choice is rejected with a usage error before the
command handler runs. -/
def choiceConvert (choices : List String) (value : String) : Option String :=
  choices.find? (fun c => lowerStr c == lowerStr value)

/-- The declared choices of the kind option of the train_qdm and
train_qplad commands of cli.py. -/
def kindChoices : List String := ["additive", "multiplicative"]

/-- Embeds the kind option of the train_qdm command of cli.py: the value
is converted by click.Choice before the handler (and hence the service)
runs. -/
def cliTrainQdmKind (value : String) : Except PyErr String :=
  match choiceConvert kindChoices value with
  | some k => .ok k
  | none => .error .usageError

/-- Embeds the kind option of the train_qplad command of cli.py, declared
identically to that of train_qdm. -/
def cliTrainQpladKind (value : String) : Except PyErr String :=
  match choiceConvert kindChoices value with
  | some k => .ok k
  | none => .error .usageError

/-- Python values relevant to the threshold, floor and ceiling options of
cli.py: None, a command line string, or a float. -/
inductive PyVal where
  | pynone
  | str (s : String)
  | float (q : ℚ)
  deriving DecidableEq, Repr

/-- Embeds the Python float constructor on the values these handlers can
receive: float of None raises a TypeError, float of one of the plain
numeral strings considered here parses it (a non-numeral raises a
ValueError), float of a float is itself. -/
def pyFloat : PyVal → Except PyErr ℚ
  | .pynone => .error .typeError
  | .str s =>
    match pyIntOfString s with
    | some n => .ok (n : ℚ)
    | none => .error .valueError
  | .float q => .ok q

/-- Embeds Python keyword binding for a parameter that has a signature
default: a keyword argument the caller supplies explicitly, even None,
shadows the signature default; the default is used only when the caller
does not pass the parameter at all. -/
def bindWithDefault (supplied : Option PyVal) (signatureDefault : PyVal) : PyVal :=
  match supplied with
  | some v => v
  | none => signatureDefault

/-- The value click supplies for an option declared with no default: the
command line string, or None when the option was omitted. -/
def clickOptValue (opt : Option String) : PyVal :=
  match opt with
  | some s => .str s
  | none => .pynone

/-- The signature default of the threshold parameter of the
adjust_maximum_precipitation handler of cli.py. -/
def thresholdSignatureDefault : PyVal := .float 3000

/-- The signature default of the floor parameter of the apply_dtr_floor
handler of cli.py. -/
def floorSignatureDefault : PyVal := .float 1

/-- The signature default of the ceiling parameter of the
apply_non_polar_dtr_ceiling handler of cli.py. -/
def ceilingSignatureDefault : PyVal := .float 70

/-- Embeds the adjust_maximum_precipitation handler body of cli.py: the
single statement is the call services.adjust_maximum_precipitation with
str(x), str(out) and float(threshold).  The callee attribute lookup is
evaluated before the arguments, and adjust_maximum_precipitation is not
among the names services.py defines, so the lookup raises an
AttributeError and float(threshold) is never evaluated. -/
def adjust_maximum_precipitation (x out : String) (threshold : PyVal) :
    Except PyErr (String × String × ℚ) :=
  match servicesAttr "adjust_maximum_precipitation" with
  | .error e => .error e
  | .ok _ =>
    match pyFloat threshold with
    | .error e => .error e
    | .ok t => .ok (x, out, t)

/-- Embeds the apply_dtr_floor handler body of cli.py: the call
services.apply_dtr_floor with str(x), str(out) and float(floor), with the
callee lookup — which fails, apply_dtr_floor being absent from
services.py — evaluated before the arguments. -/
def apply_dtr_floor (x out : String) (floor : PyVal) :
    Except PyErr (String × String × ℚ) :=
  match servicesAttr "apply_dtr_floor" with
  | .error e => .error e
  | .ok _ =>
    match pyFloat floor with
    | .error e => .error e
    | .ok f => .ok (x, out, f)

/-- Embeds the apply_non_polar_dtr_ceiling handler body of cli.py: the
call services.apply_non_polar_dtr_ceiling with str(x), str(out) and
float(ceiling), with the callee lookup — which fails, the name being
absent from services.py — evaluated before the arguments. -/
def apply_non_polar_dtr_ceiling (x out : String) (ceiling : PyVal) :
    Except PyErr (String × String × ℚ) :=
  match servicesAttr "apply_non_polar_dtr_ceiling" with
  | .error e => .error e
  | .ok _ =>
    match pyFloat ceiling with
    | .error e => .error e
    | .ok c => .ok (x, out, c)

/-- Embeds click invoking the adjust_maximum_precipitation command: click
passes every declared option to the handler explicitly, supplying None
when the option was omitted on the command line, so the signature default
is always shadowed. -/
def clickAdjustMaximumPrecipitation (x out : String) (thresholdOpt : Option String) :
    Except PyErr (String × String × ℚ) :=
  adjust_maximum_precipitation x out
    (bindWithDefault (some (clickOptValue thresholdOpt)) thresholdSignatureDefault)

/-- Embeds click invoking the apply_dtr_floor command, as above. -/
def clickApplyDtrFloor (x out : String) (floorOpt : Option String) :
    Except PyErr (String × String × ℚ) :=
  apply_dtr_floor x out
    (bindWithDefault (some (clickOptValue floorOpt)) floorSignatureDefault)

/-- Embeds click invoking the apply_non_polar_dtr_ceiling command, as
above. -/
def clickApplyNonPolarDtrCeiling (x out : String) (ceilingOpt : Option String) :
    Except PyErr (String × String × ℚ) :=
  apply_non_polar_dtr_ceiling x out
    (bindWithDefault (some (clickOptValue ceilingOpt)) ceilingSignatureDefault)

/-- Modelled from the spec (sections 3 and 4.2), source not among the two
files under study: a region specification, a mapping from dimension name
to a half-open index range; only the dimensions it lists are restricted. -/
structure RegionSpec where
  ranges : List (String × Nat × Nat)
  deriving DecidableEq, Repr

/-- Modelled from the spec (section 3 OutputStore): a primed output store
— its chunk grid and extent per dimension, the stored value at each
coordinate assignment, and the store-wide metadata written once by the
StorePrimer. -/
structure OutputStore where
  chunkSize : String → Nat
  extent : String → Nat
  cellData : (String → Nat) → ℚ
  attrs : List (String × String)

/-- Modelled from the spec: an index lies on a chunk boundary of a
dimension when it is a multiple of the chunk size or is the end of the
dimension. -/
def chunkBoundary (st : OutputStore) (dim : String) (i : Nat) : Bool :=
  i % st.chunkSize dim == 0 || i == st.extent dim

/-- Modelled from the spec (section 3 RegionSpec invariant): a RegionSpec
is aligned to the chunk grid of a store when both boundaries of every
dimension it restricts coincide with chunk boundaries. -/
def regionAligned (st : OutputStore) (r : RegionSpec) : Bool :=
  r.ranges.all (fun p => chunkBoundary st p.1 p.2.1 && chunkBoundary st p.1 p.2.2)

/-- Whether a coordinate assignment lies inside a region. -/
def inRegion (r : RegionSpec) (idx : String → Nat) : Bool :=
  r.ranges.all (fun p => decide (p.2.1 ≤ idx p.1) && decide (idx p.1 < p.2.2))

/-- One write attempt recorded by the region writer. -/
inductive WriteEvent where
  | wroteRegion (r : RegionSpec)
  deriving DecidableEq, Repr

/-- The fatal error raised for a region not aligned to the chunk grid. -/
inductive AlignmentError where
  | misaligned
  deriving DecidableEq, Repr

/-- Modelled from the spec (section 4.2 RegionWriter), source not among
the two files under study: verify that the resolved RegionSpec is
chunk-aligned and only then write the payload values inside the region;
a misaligned region raises an AlignmentError out of the single attempt —
no write is performed, nothing is retried, and the store (cell data and
metadata alike) is returned exactly as it was.  Writing never touches the
store-wide metadata. -/
def writeRegion (st : OutputStore) (r : RegionSpec) (payload : (String → Nat) → ℚ) :
    OutputStore × List WriteEvent × Option AlignmentError :=
  if regionAligned st r then
    ({ st with cellData := fun idx => if inRegion r idx then payload idx else st.cellData idx },
     [.wroteRegion r], none)
  else
    (st, [], some .misaligned)

/-- Variable kind of a trained adjustment model. -/
inductive Kind where
  | additive
  | multiplicative
  deriving DecidableEq, Repr

/-- Insertion of a value into an ascending list, used to sort samples
into an empirical distribution. -/
def insertAsc (x : ℚ) : List ℚ → List ℚ
  | [] => [x]
  | y :: ys => if x ≤ y then x :: y :: ys else y :: insertAsc x ys

/-- Ascending empirical distribution (sorted sample quantiles) of a
sample list. -/
def sortAsc (l : List ℚ) : List ℚ :=
  l.foldr insertAsc []

/-- Modelled from the spec (section 4.5 QPLAD train), source not among the
two files under study: for one fine grid cell and one seasonal window, bin
the fine reference values into quantile bins and, for each bin, compute
the adjustment factor transforming the co-located coarse reference value
at that quantile into the fine reference value at that quantile —
subtraction for additive, ratio for multiplicative. -/
def qpladTrain (kind : Kind) (coarseRef fineRef : List ℚ) : List ℚ :=
  List.zipWith
    (fun f c =>
      match kind with
      | .additive => f - c
      | .multiplicative => f / c)
    (sortAsc fineRef) (sortAsc coarseRef)

/-- Modelled from the spec (section 4.6 QPLAD apply): the quantile bin of
an input value under the coarse reference distribution implicit in the
model — the bin of the largest reference quantile not exceeding the value,
or the lowest bin when the value lies below every reference quantile. -/
def quantileBin (sortedRef : List ℚ) (x : ℚ) : Nat :=
  (sortedRef.filter (fun q => decide (q ≤ x))).length - 1

/-- Modelled from the spec (section 4.6 QPLAD apply), source not among the
two files under study: for each time step, determine the quantile bin of
the coarse input value under the coarse reference distribution and apply
the corresponding fine-cell adjustment factor — adding for additive,
multiplying for multiplicative. -/
def qpladApply (kind : Kind) (factors coarseRef : List ℚ) (xs : List ℚ) : List ℚ :=
  xs.map (fun x =>
    let f := factors.getD (quantileBin (sortAsc coarseRef) x) 0
    match kind with
    | .additive => x + f
    | .multiplicative => x * f)

/-- The data_type classifications the validate_dataset command of cli.py
accepts through click.Choice. -/
inductive DataType where
  | cmip6
  | bias_corrected
  | downscaled
  deriving DecidableEq, Repr

/-- The time_period classifications the validate_dataset command of
cli.py accepts through click.Choice. -/
inductive TimePeriod where
  | historical
  | future
  deriving DecidableEq, Repr

/-- Modelled from the spec (section 4.8): one validation rule, a named
check on a dataset. -/
structure Rule (δ : Type) where
  name : String
  check : δ → Bool

/-- The names of the rules of a rule set that a dataset violates. -/
def violatedRules {δ : Type} (rules : List (Rule δ)) (ds : δ) : List String :=
  (rules.filter (fun r => !(r.check ds))).map Rule.name

/-- Modelled from the spec (section 4.8 Validator), source not among the
two files under study: given a classification and a dataset URL, read the
dataset, run the fixed rule set for that classification, and fail with an
error listing every violated rule when any rule is violated; the dataset
is not repaired and storage is not written — the storage state is
returned unchanged. -/
def validateService {δ : Type} (ruleTable : DataType → TimePeriod → List (Rule δ))
    (dataType : DataType) (timePeriod : TimePeriod) (x : String)
    (st : StorageState δ) :
    StorageState δ × List Effect × Except (List String) Unit :=
  let ds := st.store x
  let violated := violatedRules (ruleTable dataType timePeriod) ds
  (st, [.storageRead x], if violated.isEmpty then .ok () else .error violated)

/-
  Helper lemmas about the dict model.
-/

theorem orElseO_none_right {α : Type} (a : Option α) : orElseO a none = a := by
  cases a <;> rfl

theorem orElseO_assoc {α : Type} (a b c : Option α) :
    orElseO (orElseO a b) c = orElseO a (orElseO b c) := by
  cases a <;> cases b <;> rfl

theorem dlookup_dinsert {α : Type} (k k' : String) (v : α) (d : List (String × α)) :
    dlookup k (dinsert k' v d) = if k' = k then some v else dlookup k d := by
  induction d with
  | nil => simp [dinsert, dlookup]
  | cons p rest ih =>
    by_cases h1 : p.1 = k'
    · by_cases h2 : k' = k
      · simp [dinsert, dlookup, h1, h2]
      · have h3 : ¬ p.1 = k := fun e => h2 (h1.symm.trans e)
        simp [dinsert, dlookup, h1, h2, h3]
    · by_cases h3 : p.1 = k
      · have h4 : ¬ k = k' := fun e => h1 (h3.trans e)
        have h5 : ¬ k' = k := fun e => h4 e.symm
        simp [dinsert, dlookup, h1, h3, h4, h5]
      · simp [dinsert, dlookup, h1, h3, ih]

theorem dlookup_eq_none_of_not_mem_keys {α : Type} (k : String) (d : List (String × α))
    (h : ¬ k ∈ keys d) : dlookup k d = none := by
  induction d with
  | nil => rfl
  | cons p rest ih =>
    simp only [keys, List.map_cons, List.mem_cons] at h
    push_neg at h
    have h1 : ¬ p.1 = k := fun e => h.1 e.symm
    simp [dlookup, h1, ih (by simpa [keys] using h.2)]

theorem dlookup_foldIns {α : Type} (l : List (String × α)) :
    ∀ (acc : List (String × α)) (k : String), (keys l).Nodup →
      dlookup k (foldIns acc l) = orElseO (dlookup k l) (dlookup k acc) := by
  induction l with
  | nil => intro acc k _; rfl
  | cons p t ih =>
    intro acc k hnd
    simp only [keys, List.map_cons, List.nodup_cons] at hnd
    have step : foldIns acc (p :: t) = foldIns (dinsert p.1 p.2 acc) t := rfl
    rw [step, ih (dinsert p.1 p.2 acc) k hnd.2, dlookup_dinsert]
    by_cases h : p.1 = k
    · subst h
      have : dlookup p.1 t = none :=
        dlookup_eq_none_of_not_mem_keys p.1 t (by simpa [keys] using hnd.1)
      simp [dlookup, this, orElseO]
    · simp [dlookup, h]

theorem unpackAttrsFrom_lookup (entries : List String) :
    ∀ (acc d : List (String × String)) (k : String),
      unpackAttrsFrom acc entries = .ok d →
      dlookup k d = orElseO (lastVal k entries) (dlookup k acc) := by
  induction entries with
  | nil =>
    intro acc d k h
    cases h
    rfl
  | cons s rest ih =>
    intro acc d k h
    unfold unpackAttrsFrom at h
    unfold lastVal
    cases hsp : pySplit '=' s with
    | nil => rw [splitEq2, hsp] at h; cases h
    | cons k1 tl =>
      cases tl with
      | nil => rw [splitEq2, hsp] at h; cases h
      | cons v1 tl2 =>
        cases tl2 with
        | nil =>
          rw [splitEq2, hsp] at h
          simp only at h
          rw [ih (dinsert k1 v1 acc) d k h, dlookup_dinsert]
          by_cases hk : k1 = k
          · cases lastVal k rest <;> simp [hk, orElseO]
          · cases lastVal k rest <;> simp [hk, orElseO]
        | cons z tl3 => rw [splitEq2, hsp] at h; cases h

/-
  Helper lemmas about the empirical distribution model.
-/

theorem mem_insertAsc (x b : ℚ) : ∀ (l : List ℚ), b ∈ insertAsc x l ↔ b = x ∨ b ∈ l := by
  intro l
  induction l with
  | nil => simp [insertAsc]
  | cons y ys ih =>
    by_cases h : x ≤ y
    · simp [insertAsc, h]
    · simp [insertAsc, h, ih]
      tauto

theorem mem_sortAsc (b : ℚ) : ∀ (l : List ℚ), b ∈ sortAsc l ↔ b ∈ l := by
  intro l
  induction l with
  | nil => simp [sortAsc]
  | cons y ys ih =>
    have step : sortAsc (y :: ys) = insertAsc y (sortAsc ys) := rfl
    rw [step, mem_insertAsc]
    simp [ih]

theorem length_insertAsc (x : ℚ) : ∀ (l : List ℚ), (insertAsc x l).length = l.length + 1 := by
  intro l
  induction l with
  | nil => rfl
  | cons y ys ih =>
    by_cases h : x ≤ y <;> simp [insertAsc, h, ih]

theorem length_sortAsc : ∀ (l : List ℚ), (sortAsc l).length = l.length := by
  intro l
  induction l with
  | nil => rfl
  | cons y ys ih =>
    have step : sortAsc (y :: ys) = insertAsc y (sortAsc ys) := rfl
    rw [step, length_insertAsc, ih]
    rfl

theorem zipWith_sub_self : ∀ (l : List ℚ),
    List.zipWith (fun f c => f - c) l l = List.replicate l.length 0 := by
  intro l
  induction l with
  | nil => rfl
  | cons y ys ih => simp [List.replicate, ih]

theorem zipWith_div_self : ∀ (l : List ℚ), (∀ a ∈ l, a ≠ 0) →
    List.zipWith (fun f c => f / c) l l = List.replicate l.length 1 := by
  intro l hl
  induction l with
  | nil => rfl
  | cons y ys ih =>
    have hy : y ≠ 0 := hl y (List.mem_cons_self y ys)
    have ihh := ih (fun a ha => hl a (List.mem_cons_of_mem y ha))
    rw [List.zipWith_cons_cons, div_self hy, ihh, List.length_cons, List.replicate_succ]

theorem getD_replicate {α : Type} (a d : α) : ∀ (n i : Nat),
    (List.replicate n a).getD i d = if i < n then a else d := by
  intro n
  induction n with
  | zero => intro i; simp [List.replicate]
  | succ m ih =>
    intro i
    cases i with
    | zero => simp [List.replicate]
    | succ j => simpa [List.replicate, Nat.succ_lt_succ_iff] using ih j

theorem quantileBin_lt_length (sortedRef : List ℚ) (x : ℚ) (h : sortedRef ≠ []) :
    quantileBin sortedRef x < sortedRef.length := by
  have h1 : (sortedRef.filter (fun q => decide (q ≤ x))).length ≤ sortedRef.length :=
    List.length_filter_le _ _
  have h2 : 0 < sortedRef.length := List.length_pos.mpr h
  unfold quantileBin
  omega

/-
  Claim theorems.
-/

/-- C1: for every RegionSpec that is not aligned to the chunk grid of the
store, the region writer fails with an AlignmentError out of its single
attempt — it records no write (so no partial write and no retry) and
returns the store, cell data and metadata alike, exactly as it was before
the call. -/
theorem writeRegion_misaligned_fails_store_untouched (st : OutputStore) (r : RegionSpec)
    (payload : (String → Nat) → ℚ) (h : regionAligned st r = false) :
    writeRegion st r payload = (st, [], some .misaligned) := by
  simp [writeRegion, h]

/-- Witness for C1 at a concrete store and region: the store has chunk
size two on every dimension and extent four, and the region starts at
index one, which is not a chunk boundary. -/
theorem writeRegion_misaligned_fails_store_untouched_witness :
    regionAligned ⟨fun _ => 2, fun _ => 4, fun _ => 0, []⟩ ⟨[("time", 1, 3)]⟩ = false ∧
    writeRegion ⟨fun _ => 2, fun _ => 4, fun _ => 0, []⟩ ⟨[("time", 1, 3)]⟩ (fun _ => 5) =
      (⟨fun _ => 2, fun _ => 4, fun _ => 0, []⟩, [], some .misaligned) :=
  ⟨rfl, writeRegion_misaligned_fails_store_untouched _ _ _ rfl⟩

/-- C2: the CLI rechunk command calls services.rechunk without the
required max_mem and storage arguments, and the cleancmip6 and
removeleapdays commands call services.clean_cmip6 and
services.remove_leapdays without the required storage argument, so every
invocation raises a TypeError at the inner call — after the decorator
start log but before any storage read. -/
theorem cli_rechunk_clean_removeleapdays_typeError (x out : String) :
    missingRequired rechunkParams 1 ["target_chunks", "out"] = ["max_mem", "storage"] ∧
    missingRequired cleanCmip6Params 3 [] = ["storage"] ∧
    missingRequired removeLeapdaysParams 2 [] = ["storage"] ∧
    cliRechunk x out = ([.log (startingMsg "rechunk")], .error .typeError) ∧
    cliCleancmip6 x out = ([.log (startingMsg "clean_cmip6")], .error .typeError) ∧
    cliRemoveleapdays x out = ([.log (startingMsg "remove_leapdays")], .error .typeError) ∧
    (cliRechunk x out).1.filter Effect.isStorageRead = [] ∧
    (cliCleancmip6 x out).1.filter Effect.isStorageRead = [] ∧
    (cliRemoveleapdays x out).1.filter Effect.isStorageRead = [] :=
  ⟨rfl, rfl, rfl, rfl, rfl, rfl, rfl, rfl, rfl⟩

/-- C9: a function wrapped with log_service returns None regardless of
the wrapped function result, logging the start message before the wrapped
function and the done message after it returns; when the wrapped function
raises, the exception propagates and the done message is not logged. -/
theorem log_service_wrapper_behavior {α ε ρ : Type} (servicename : String)
    (func : α → List String × Except ε ρ) (args : α) :
    (∀ funcLog r, func args = (funcLog, .ok r) →
      log_service servicename func args =
        (startingMsg servicename :: funcLog ++ [doneMsg servicename], .ok ())) ∧
    (∀ funcLog e, func args = (funcLog, .error e) →
      log_service servicename func args =
        (startingMsg servicename :: funcLog, .error e)) := by
  constructor
  · intro funcLog r h
    simp [log_service, h]
  · intro funcLog e h
    simp [log_service, h]

/-- Witness for C9: a wrapped function returning the value zero yields
None with both log lines; a wrapped function raising a TypeError yields
that error with only the start line. -/
theorem log_service_wrapper_behavior_witness :
    log_service "bias_correct"
        (fun _ : Unit => (([] : List String), (Except.ok 0 : Except PyErr Nat))) () =
      ([startingMsg "bias_correct", doneMsg "bias_correct"], .ok ()) ∧
    log_service "rechunk"
        (fun _ : Unit => (([] : List String), (Except.error PyErr.typeError : Except PyErr Nat))) () =
      ([startingMsg "rechunk"], .error PyErr.typeError) :=
  ⟨(log_service_wrapper_behavior "bias_correct" _ ()).1 [] 0 rfl,
   (log_service_wrapper_behavior "rechunk" _ ()).2 [] PyErr.typeError rfl⟩

/-- C10 counterexample: with the numeric option omitted, each of the
three commands fails with an AttributeError, not with the TypeError the
claim asserts, and the same AttributeError occurs even when the option is
supplied — the callee lookup fails before float is ever evaluated. -/
theorem omitted_numeric_option_not_typeError_counterexample :
    clickAdjustMaximumPrecipitation "in.zarr" "out.zarr" none =
      .error .attributeError ∧
    ¬ clickAdjustMaximumPrecipitation "in.zarr" "out.zarr" none =
      .error .typeError ∧
    ¬ clickApplyDtrFloor "in.zarr" "out.zarr" none = .error .typeError ∧
    ¬ clickApplyNonPolarDtrCeiling "in.zarr" "out.zarr" none = .error .typeError ∧
    clickAdjustMaximumPrecipitation "in.zarr" "out.zarr" (some "5") =
      .error .attributeError := by
  have b1 : clickAdjustMaximumPrecipitation "in.zarr" "out.zarr" none =
      .error .attributeError := rfl
  have b2 : clickApplyDtrFloor "in.zarr" "out.zarr" none = .error .attributeError := rfl
  have b3 : clickApplyNonPolarDtrCeiling "in.zarr" "out.zarr" none =
      .error .attributeError := rfl
  refine ⟨b1, ?_, ?_, ?_, rfl⟩
  · intro h
    injection b1.symm.trans h with h2
    cases h2
  · intro h
    injection b2.symm.trans h with h2
    cases h2
  · intro h
    injection b3.symm.trans h with h2
    cases h2

/-- C10 amended: invoking adjust-maximum-precipitation, apply-dtr-floor
or apply-non-polar-dtr-ceiling fails with an AttributeError at the
services attribute lookup — the callee of a call is evaluated before its
arguments, and none of the three service names exists in services.py —
whether or not the numeric option is supplied.  The shadowing mechanism
the claim describes does hold: click supplies None for the omitted
option, that None shadows the signature defaults 3000.0, 1.0 and 70.0,
and float of None would be a TypeError, but float is never reached. -/
theorem omitted_numeric_option_attributeError (x out : String) :
    clickAdjustMaximumPrecipitation x out none = .error .attributeError ∧
    clickApplyDtrFloor x out none = .error .attributeError ∧
    clickApplyNonPolarDtrCeiling x out none = .error .attributeError ∧
    clickAdjustMaximumPrecipitation x out (some "5") = .error .attributeError ∧
    bindWithDefault (some (clickOptValue none)) thresholdSignatureDefault = .pynone ∧
    bindWithDefault (some (clickOptValue none)) floorSignatureDefault = .pynone ∧
    bindWithDefault (some (clickOptValue none)) ceilingSignatureDefault = .pynone ∧
    pyFloat .pynone = .error .typeError ∧
    servicesAttr "adjust_maximum_precipitation" = .error .attributeError ∧
    servicesAttr "apply_dtr_floor" = .error .attributeError ∧
    servicesAttr "apply_non_polar_dtr_ceiling" = .error .attributeError :=
  ⟨rfl, rfl, rfl, rfl, rfl, rfl, rfl, rfl, rfl, rfl, rfl⟩

/-- C5: the kind argument reaching the training service from the
train_qdm or train_qplad command is exactly additive or multiplicative,
matched case-insensitively; any other kind value is rejected at the CLI
boundary, before the service is called. -/
theorem train_kind_restricted_to_choices :
    (∀ v k, cliTrainQdmKind v = .ok k → k = "additive" ∨ k = "multiplicative") ∧
    (∀ v k, cliTrainQpladKind v = .ok k → k = "additive" ∨ k = "multiplicative") ∧
    (∀ v, lowerStr v ≠ "additive" → lowerStr v ≠ "multiplicative" →
      cliTrainQdmKind v = .error .usageError ∧
      cliTrainQpladKind v = .error .usageError) := by
  have hmem : ∀ v k, choiceConvert kindChoices v = some k →
      k = "additive" ∨ k = "multiplicative" := by
    intro v k h
    have hk : k ∈ kindChoices := List.mem_of_find?_eq_some h
    simpa [kindChoices] using hk
  have hnone : ∀ v, lowerStr v ≠ "additive" → lowerStr v ≠ "multiplicative" →
      choiceConvert kindChoices v = none := by
    intro v h1 h2
    have e1 : lowerStr "additive" = "additive" := rfl
    have e2 : lowerStr "multiplicative" = "multiplicative" := rfl
    have f1 : (lowerStr "additive" == lowerStr v) = false := by
      rw [e1]
      exact beq_eq_false_iff_ne.mpr (fun e => h1 e.symm)
    have f2 : (lowerStr "multiplicative" == lowerStr v) = false := by
      rw [e2]
      exact beq_eq_false_iff_ne.mpr (fun e => h2 e.symm)
    simp [choiceConvert, kindChoices, List.find?, f1, f2]
  refine ⟨?_, ?_, ?_⟩
  · intro v k h
    unfold cliTrainQdmKind at h
    cases hc : choiceConvert kindChoices v with
    | none => rw [hc] at h; cases h
    | some k0 =>
      rw [hc] at h
      cases h
      exact hmem v _ hc
  · intro v k h
    unfold cliTrainQpladKind at h
    cases hc : choiceConvert kindChoices v with
    | none => rw [hc] at h; cases h
    | some k0 =>
      rw [hc] at h
      cases h
      exact hmem v _ hc
  · intro v h1 h2
    constructor
    · unfold cliTrainQdmKind
      rw [hnone v h1 h2]
    · unfold cliTrainQpladKind
      rw [hnone v h1 h2]

/-- Witness for C5: an upper-cased spelling is accepted as multiplicative,
and a value outside the two choices is rejected by both commands. -/
theorem train_kind_restricted_to_choices_witness :
    ("multiplicative" = "additive" ∨ ("multiplicative" : String) = "multiplicative") ∧
    (cliTrainQdmKind "banana" = .error .usageError ∧
      cliTrainQpladKind "banana" = .error .usageError) :=
  ⟨train_kind_restricted_to_choices.1 "MULTIplicative" "multiplicative" rfl,
   train_kind_restricted_to_choices.2.2 "banana" (by decide) (by decide)⟩

/-- C7: the services bias_correct, clean_cmip6 and remove_leapdays each
perform exactly one storage write, targeted at the out URL, whose payload
is the new dataset produced by the respective transform; every URL other
than out — in particular the inputs x, x_train and y_train when distinct
from out — holds its previous dataset afterwards. -/
theorem services_write_out_only_inputs_unchanged {α : Type}
    (apply_bias_correction : α → α → α → String → String → String → α)
    (standardize_gcm : α → Bool → α) (xclim_remove_leapdays : α → α)
    (x x_train train_variable y_train out out_variable method : String)
    (leapday_removal : Bool) (st : StorageState α) :
    ((bias_correct apply_bias_correction x x_train train_variable y_train out
        out_variable method st).2.filter Effect.isStorageWrite = [.storageWrite out]) ∧
    ((clean_cmip6 standardize_gcm x out leapday_removal st).2.filter
        Effect.isStorageWrite = [.storageWrite out]) ∧
    ((remove_leapdays xclim_remove_leapdays x out st).2.filter
        Effect.isStorageWrite = [.storageWrite out]) ∧
    ((bias_correct apply_bias_correction x x_train train_variable y_train out
        out_variable method st).1.store out =
      apply_bias_correction (st.store x_train) (st.store y_train) (st.store x)
        train_variable out_variable method) ∧
    ((clean_cmip6 standardize_gcm x out leapday_removal st).1.store out =
      standardize_gcm (st.store x) leapday_removal) ∧
    ((remove_leapdays xclim_remove_leapdays x out st).1.store out =
      xclim_remove_leapdays (st.store x)) ∧
    (∀ u, u ≠ out →
      (bias_correct apply_bias_correction x x_train train_variable y_train out
          out_variable method st).1.store u = st.store u ∧
      (clean_cmip6 standardize_gcm x out leapday_removal st).1.store u = st.store u ∧
      (remove_leapdays xclim_remove_leapdays x out st).1.store u = st.store u) := by
  refine ⟨rfl, rfl, rfl, ?_, ?_, ?_, ?_⟩
  · simp [bias_correct]
  · simp [clean_cmip6]
  · simp [remove_leapdays]
  · intro u hu
    exact ⟨by simp [bias_correct, hu], by simp [clean_cmip6, hu],
      by simp [remove_leapdays, hu]⟩

/-- Witness for C7 at concrete URLs, transforms and storage contents: the
single write targets the out URL and the input URL keeps its dataset. -/
theorem services_write_out_only_inputs_unchanged_witness :
    ((bias_correct (fun a b c _ _ _ => a + b + c) "x" "xt" "tv" "yt" "o" "ov" "m"
        ⟨fun _ => (1 : Nat)⟩).2.filter Effect.isStorageWrite = [.storageWrite "o"]) ∧
    ((bias_correct (fun a b c _ _ _ => a + b + c) "x" "xt" "tv" "yt" "o" "ov" "m"
        ⟨fun _ => (1 : Nat)⟩).1.store "x" = 1) ∧
    ((clean_cmip6 (fun a _ => a) "x" "o" true ⟨fun _ => (1 : Nat)⟩).1.store "x" = 1) ∧
    ((remove_leapdays (fun a => a) "x" "o" ⟨fun _ => (1 : Nat)⟩).1.store "x" = 1) := by
  have h := services_write_out_only_inputs_unchanged (fun a b c _ _ _ => a + b + c)
    (fun a _ => a) (fun a => a) "x" "xt" "tv" "yt" "o" "ov" "m" true ⟨fun _ => (1 : Nat)⟩
  have hu := h.2.2.2.2.2.2 "x" (by decide)
  exact ⟨h.1, hu.1, hu.2.1, hu.2.2⟩

/-- C8: for every dataset and classification, the validator runs the
fixed rule set for that classification; the error case lists exactly the
violated rules and occurs exactly when some rule is violated, and the
validator never modifies the dataset or writes to storage. -/
theorem validateService_rules_error_no_modification {δ : Type}
    (ruleTable : DataType → TimePeriod → List (Rule δ))
    (dataType : DataType) (timePeriod : TimePeriod) (x : String) (st : StorageState δ) :
    ((validateService ruleTable dataType timePeriod x st).1 = st) ∧
    ((validateService ruleTable dataType timePeriod x st).2.1.filter
        Effect.isStorageWrite = []) ∧
    (∀ n, n ∈ violatedRules (ruleTable dataType timePeriod) (st.store x) ↔
      ∃ rule ∈ ruleTable dataType timePeriod,
        rule.check (st.store x) = false ∧ rule.name = n) ∧
    (violatedRules (ruleTable dataType timePeriod) (st.store x) ≠ [] →
      (validateService ruleTable dataType timePeriod x st).2.2 =
        .error (violatedRules (ruleTable dataType timePeriod) (st.store x))) ∧
    (violatedRules (ruleTable dataType timePeriod) (st.store x) = [] →
      (validateService ruleTable dataType timePeriod x st).2.2 = .ok ()) := by
  refine ⟨rfl, rfl, ?_, ?_, ?_⟩
  · intro n
    simp only [violatedRules, List.mem_map, List.mem_filter, Bool.not_eq_true']
    constructor
    · rintro ⟨rule, ⟨hmem, hcheck⟩, hname⟩
      exact ⟨rule, hmem, hcheck, hname⟩
    · rintro ⟨rule, hmem, hcheck, hname⟩
      exact ⟨rule, ⟨hmem, hcheck⟩, hname⟩
  · intro h
    cases hv : violatedRules (ruleTable dataType timePeriod) (st.store x) with
    | nil => exact absurd hv h
    | cons a l => simp [validateService, hv]
  · intro h
    simp [validateService, h]

/-- Witness for C8 at a concrete rule table and dataset: the dataset zero
violates the positivity rule, so validation fails listing it, while the
storage state is returned unchanged. -/
theorem validateService_rules_error_no_modification_witness :
    ((validateService
        (fun _ _ => [⟨"positive", fun d => decide (0 < d)⟩,
          ⟨"small", fun d => decide (d < 10)⟩])
        DataType.cmip6 TimePeriod.historical "x" ⟨fun _ => (0 : Nat)⟩).1 =
      ⟨fun _ => (0 : Nat)⟩) ∧
    ((validateService
        (fun _ _ => [⟨"positive", fun d => decide (0 < d)⟩,
          ⟨"small", fun d => decide (d < 10)⟩])
        DataType.cmip6 TimePeriod.historical "x" ⟨fun _ => (0 : Nat)⟩).2.2 =
      .error ["positive"]) := by
  have h := validateService_rules_error_no_modification
    (fun _ _ => [⟨"positive", fun d => decide (0 < d)⟩,
      ⟨"small", fun d => decide (d < 10)⟩])
    DataType.cmip6 TimePeriod.historical "x" (⟨fun _ => (0 : Nat)⟩ : StorageState Nat)
  have hv : violatedRules
      [(⟨"positive", fun d => decide (0 < d)⟩ : Rule Nat),
        ⟨"small", fun d => decide (d < 10)⟩] 0 = ["positive"] := rfl
  have he := h.2.2.2.1 (by decide)
  exact ⟨h.1, hv ▸ he⟩

/-- C3 counterexample: at concrete well-formed slice options the parsing
succeeds, yet the handler passes nothing to any service — apply_qdm is
not among the names services.py defines, so the call raises an
AttributeError at the callee lookup (and the train_qdm handler faces the
same missing name). -/
theorem slice_dicts_never_reach_service_counterexample :
    cliApplyQdmSlices ["time=2020,2021"] ["lat=0,90"] ["lon=10,20"] =
      .ok cliApplyQdmSlicesWitnessArgs ∧
    cliApplyQdm ["time=2020,2021"] ["lat=0,90"] ["lon=10,20"] =
      .error .attributeError ∧
    servicesAttr "apply_qdm" = .error .attributeError ∧
    servicesAttr "train_qdm" = .error .attributeError :=
  ⟨rfl, rfl, rfl, rfl⟩

/-- C3 amended: a selslice entry of the form dim=start,stop parses to a
label-based slice whose boundaries are the strings start and stop, while
iselslice and out-zarr-region entries of the same form parse to
index-based slices whose boundaries are the integers start and stop, and
the apply_qdm handler collects the parsed dicts unchanged into its
sel_slice, isel_slice and out_zarr_region call arguments; but they never
reach a service: the call fails with an AttributeError at the
services.apply_qdm lookup, that name being absent from services.py. -/
theorem slice_options_typed_but_call_attributeError :
    (∀ s dim v a b, pySplit '=' s = [dim, v] → pySplit ',' v = [a, b] →
      parseSelEntry s = .ok (dim, ⟨some a, some b, none⟩)) ∧
    (∀ s dim v a b na nb, pySplit '=' s = [dim, v] → pySplit ',' v = [a, b] →
      pyIntOfString a = some na → pyIntOfString b = some nb →
      parseIntSliceEntry s = .ok (dim, ⟨some na, some nb, none⟩) ∧
      parseRegionEntry s = .ok (dim, ⟨some na, some nb, none⟩)) ∧
    (∀ selslice iselslice outZarrRegion args,
      cliApplyQdmSlices selslice iselslice outZarrRegion = .ok args →
      cliApplyQdm selslice iselslice outZarrRegion = .error .attributeError) := by
  refine ⟨?_, ?_, ?_⟩
  · intro s dim v a b h1 h2
    simp only [parseSelEntry, splitEq2, h1, h2, mkSlice]
  · intro s dim v a b na nb h1 h2 h3 h4
    constructor <;>
      simp only [parseRegionEntry, parseIntSliceEntry, splitEq2, h1, h2, pyIntList,
        h3, h4, mkSlice]
  · intro selslice iselslice outZarrRegion args h
    unfold cliApplyQdm
    rw [h]
    rfl

/-- Witness for the amended C3 at concrete option strings: a selslice
entry keeps string boundaries, iselslice and out-zarr-region entries get
integer boundaries, and the handler invocation on them ends in the
AttributeError. -/
theorem slice_options_typed_but_call_attributeError_witness :
    parseSelEntry "time=2020,2021" = .ok ("time", ⟨some "2020", some "2021", none⟩) ∧
    parseIntSliceEntry "lat=0,90" = .ok ("lat", ⟨some 0, some 90, none⟩) ∧
    parseRegionEntry "lat=0,90" = .ok ("lat", ⟨some 0, some 90, none⟩) ∧
    cliApplyQdm ["time=2020,2021"] ["lat=0,90"] ["lon=10,20"] =
      .error .attributeError := by
  have hsel := slice_options_typed_but_call_attributeError.1 "time=2020,2021"
    "time" "2020,2021" "2020" "2021" rfl rfl
  have hint := slice_options_typed_but_call_attributeError.2.1 "lat=0,90"
    "lat" "0,90" "0" "90" 0 90 rfl rfl rfl rfl
  have hcall := slice_options_typed_but_call_attributeError.2.2
    ["time=2020,2021"] ["lat=0,90"] ["lon=10,20"] cliApplyQdmSlicesWitnessArgs rfl
  exact ⟨hsel, hint.1, hint.2, hcall⟩

/-- C4: at the CLI layer each key=value entry of new-attrs contributes
the mapping from key to value, with the last entry winning when a key is
repeated; and in the merged attribute set each key present among the
overrides gets the override value — overrides beat the JSON blob, which
beats the attributes implied by the input data. -/
theorem attrs_last_entry_wins_and_override_precedence :
    (∀ entries d k, unpackAttrs entries = .ok d → dlookup k d = lastVal k entries) ∧
    (∀ dataAttrs jsonAttrs overrides : List (String × String), ∀ k : String,
      (keys jsonAttrs).Nodup → (keys overrides).Nodup →
      (∀ v, dlookup k overrides = some v →
        dlookup k (mergeAttrs dataAttrs jsonAttrs overrides) = some v) ∧
      (∀ v, dlookup k overrides = none → dlookup k jsonAttrs = some v →
        dlookup k (mergeAttrs dataAttrs jsonAttrs overrides) = some v) ∧
      (dlookup k overrides = none → dlookup k jsonAttrs = none →
        dlookup k (mergeAttrs dataAttrs jsonAttrs overrides) = dlookup k dataAttrs)) := by
  constructor
  · intro entries d k h
    have hl := unpackAttrsFrom_lookup entries [] d k h
    simpa [dlookup, orElseO_none_right] using hl
  · intro dataAttrs jsonAttrs overrides k hj ho
    have hm : dlookup k (mergeAttrs dataAttrs jsonAttrs overrides) =
        orElseO (dlookup k overrides)
          (orElseO (dlookup k jsonAttrs) (dlookup k dataAttrs)) := by
      unfold mergeAttrs
      rw [dlookup_foldIns overrides _ k ho, dlookup_foldIns jsonAttrs _ k hj]
    refine ⟨?_, ?_, ?_⟩
    · intro v hv
      rw [hm, hv]
      rfl
    · intro v hv hjv
      rw [hm, hv, hjv]
      rfl
    · intro hv hjv
      rw [hm, hv, hjv]
      rfl

/-- Witness for C4 at concrete entries and attribute sets: the repeated
key keeps its last value, and the override value wins over the JSON blob
value for the shared key. -/
theorem attrs_last_entry_wins_and_override_precedence_witness :
    dlookup "k" [("k", "2"), ("j", "3")] = lastVal "k" ["k=1", "k=2", "j=3"] ∧
    dlookup "c" (mergeAttrs [("a", "da")] [("b", "jb"), ("c", "jc")] [("c", "oc")]) =
      some "oc" :=
  ⟨attrs_last_entry_wins_and_override_precedence.1 ["k=1", "k=2", "j=3"]
      [("k", "2"), ("j", "3")] "k" rfl,
   (attrs_last_entry_wins_and_override_precedence.2 [("a", "da")]
      [("b", "jb"), ("c", "jc")] [("c", "oc")] "c" (by decide) (by decide)).1 "oc" rfl⟩

/-- C6: with identical coarse and fine reference series, QPLAD training
produces identity adjustment factors — zero for additive and, the
reference values being nonzero so that the training ratios are defined,
one for multiplicative — and QPLAD apply with the trained factors returns
its input unchanged. -/
theorem qplad_identical_refs_identity (ref xs : List ℚ) :
    (qpladTrain .additive ref ref = List.replicate ref.length 0 ∧
      qpladApply .additive (qpladTrain .additive ref ref) ref xs = xs) ∧
    (ref ≠ [] → (∀ a ∈ ref, a ≠ 0) →
      qpladTrain .multiplicative ref ref = List.replicate ref.length 1 ∧
      qpladApply .multiplicative (qpladTrain .multiplicative ref ref) ref xs = xs) := by
  have hlen : (sortAsc ref).length = ref.length := length_sortAsc ref
  constructor
  · have ht : qpladTrain .additive ref ref = List.replicate ref.length 0 := by
      show List.zipWith (fun f c : ℚ => f - c) (sortAsc ref) (sortAsc ref) = _
      rw [zipWith_sub_self, hlen]
    refine ⟨ht, ?_⟩
    unfold qpladApply
    rw [ht]
    have happ : ∀ x : ℚ,
        x + (List.replicate ref.length (0 : ℚ)).getD (quantileBin (sortAsc ref) x) 0 = x := by
      intro x
      rw [getD_replicate, ite_self, add_zero]
    calc xs.map (fun x =>
            x + (List.replicate ref.length (0 : ℚ)).getD (quantileBin (sortAsc ref) x) 0)
        = xs.map id := List.map_congr_left (fun a _ => happ a)
      _ = xs := List.map_id xs
  · intro hne hnz
    have hnz2 : ∀ a ∈ sortAsc ref, a ≠ 0 := fun a ha => hnz a ((mem_sortAsc a ref).mp ha)
    have ht : qpladTrain .multiplicative ref ref = List.replicate ref.length 1 := by
      show List.zipWith (fun f c : ℚ => f / c) (sortAsc ref) (sortAsc ref) = _
      rw [zipWith_div_self _ hnz2, hlen]
    refine ⟨ht, ?_⟩
    have hlen0 : 0 < ref.length := List.length_pos.mpr hne
    have hbin : ∀ x : ℚ, quantileBin (sortAsc ref) x < ref.length := by
      intro x
      have hsne : sortAsc ref ≠ [] := by
        intro e
        rw [e] at hlen
        simp at hlen
        omega
      have hb := quantileBin_lt_length (sortAsc ref) x hsne
      rwa [hlen] at hb
    unfold qpladApply
    rw [ht]
    have happ : ∀ x : ℚ,
        x * (List.replicate ref.length (1 : ℚ)).getD (quantileBin (sortAsc ref) x) 0 = x := by
      intro x
      rw [getD_replicate, if_pos (hbin x), mul_one]
    calc xs.map (fun x =>
            x * (List.replicate ref.length (1 : ℚ)).getD (quantileBin (sortAsc ref) x) 0)
        = xs.map id := List.map_congr_left (fun a _ => happ a)
      _ = xs := List.map_id xs

/-- Witness for C6 at a concrete reference series and input: training on
identical references yields all-one multiplicative and all-zero additive
factors, and applying either model leaves the input unchanged. -/
theorem qplad_identical_refs_identity_witness :
    qpladTrain .multiplicative [1, 2] [1, 2] = [1, 1] ∧
    qpladApply .multiplicative (qpladTrain .multiplicative [1, 2] [1, 2]) [1, 2] [5, 7] =
      [5, 7] ∧
    qpladTrain .additive [1, 2] [1, 2] = [0, 0] ∧
    qpladApply .additive (qpladTrain .additive [1, 2] [1, 2]) [1, 2] [5, 7] = [5, 7] := by
  have h := qplad_identical_refs_identity [1, 2] [5, 7]
  have hm := h.2 (by simp) (by norm_num)
  exact ⟨hm.1, hm.2, h.1.1, h.1.2⟩

/-- C7 counterexample: with out equal to the input URL — a collision the
code does not guard against — the single write of clean_cmip6 targets the
input URL itself and the input dataset is changed by the call, against
the claim that no input URL is ever written to. -/
theorem services_input_overwritten_counterexample :
    (clean_cmip6 (fun a _ => a + 1) "same.zarr" "same.zarr" true
        (⟨fun _ => (0 : Nat)⟩ : StorageState Nat)).2.filter Effect.isStorageWrite =
      [.storageWrite "same.zarr"] ∧
    (clean_cmip6 (fun a _ => a + 1) "same.zarr" "same.zarr" true
        (⟨fun _ => (0 : Nat)⟩ : StorageState Nat)).1.store "same.zarr" = 1 ∧
    ¬ (clean_cmip6 (fun a _ => a + 1) "same.zarr" "same.zarr" true
        (⟨fun _ => (0 : Nat)⟩ : StorageState Nat)).1.store "same.zarr" = 0 := by
  refine ⟨rfl, ?_, ?_⟩
  · simp [clean_cmip6]
  · simp [clean_cmip6]

/-- C6 counterexample: at a zero reference value — the normal situation
for a multiplicative precipitation series — the training ratio is zero
over zero, so the trained factor is not one and apply does not return its
input. -/
theorem qplad_zero_reference_counterexample :
    qpladTrain .multiplicative [0] [0] = [0] ∧
    ¬ qpladTrain .multiplicative [0] [0] = [1] ∧
    qpladApply .multiplicative (qpladTrain .multiplicative [0] [0]) [0] [5] = [0] ∧
    ¬ qpladApply .multiplicative (qpladTrain .multiplicative [0] [0]) [0] [5] = [5] := by
  have ht : qpladTrain .multiplicative [0] [0] = [0] := by
    show [(0 : ℚ) / 0] = [0]
    rw [div_zero]
  have hd : decide ((0 : ℚ) ≤ 5) = true := decide_eq_true (by norm_num)
  have ha : qpladApply .multiplicative [0] [0] [5] = [0] := by
    simp [qpladApply, quantileBin, sortAsc, insertAsc, hd]
  refine ⟨ht, ?_, ?_, ?_⟩
  · rw [ht]
    intro h
    have h2 := List.head_eq_of_cons_eq h
    norm_num at h2
  · rw [ht]
    exact ha
  · rw [ht, ha]
    intro h
    have h2 := List.head_eq_of_cons_eq h
    norm_num at h2

end Dodola
